import Mathlib

/-!
# Verification of the Boss-Loop-station audio core

Shallow embedding of the repository's audio core in Lean 4, with theorems
settling the frozen specification claims.

Modelling conventions:
* `f32` samples are modelled as `ℚ`: every arithmetic step of the source is
  mirrored exactly, without IEEE rounding.  The claims settled here concern
  shapes, state transitions and which arithmetic operations happen, not
  floating-point rounding behaviour.
* Rust methods taking `&mut self` become state-passing functions; a method
  returning `Result<(), AudioError>` becomes a function returning
  `Model × Option AudioError` (the `.2` component is `none` on `Ok(())`,
  `some e` on `Err(e)`; on the error path the returned model equals the
  input, mirroring the early `return Err(...)` before any mutation).
* A Rust operation that can panic (index out of bounds, `% 0`) is modelled
  as returning `Option`, `none` marking the panic.
* `VecDeque` history stacks are modelled as lists with the BACK of the
  deque at the HEAD of the list: `push_back` is `cons`, `pop_back` takes the
  head, `pop_front` drops the last element (`dropLast`).
-/

namespace LoopStation

/-- Error variants from `src/error/types.rs` used by the modelled core
(the JACK/port/effect variants are irrelevant to the modelled operations
and are omitted). -/
inductive AudioError where
  | ChannelMismatch
  | InvalidBuffer
  | BufferMismatch
  | InvalidStateTransition
  | NothingToUndo
  | NothingToRedo
deriving DecidableEq, Repr

namespace CoreBuffer

/-- `AudioBuffer` from `src/core/buffer.rs`: per-channel sample storage.
The `Arc` copy-on-write wrapper is transparent to the sequential semantics
modelled here (every mutation goes through `Arc::make_mut`); reserved
capacity of the backing `Vec`s is not modelled, only logical contents. -/
structure AudioBuffer where
  samples : List (List ℚ)
  sampleRate : ℕ
  channels : ℕ
deriving DecidableEq, Repr

/-- `AudioBuffer::new`: `channels` empty channels. -/
def AudioBuffer.new (sampleRate : ℕ) (channels : ℕ) : AudioBuffer :=
  { samples := List.replicate channels [], sampleRate := sampleRate, channels := channels }

/-- `AudioBuffer::len`: `self.samples[0].len()`.  The source indexes channel 0
unconditionally (a 0-channel buffer would panic there); the model reads the
head channel, defaulting to the empty channel. -/
def AudioBuffer.len (b : AudioBuffer) : ℕ :=
  (b.samples.headD []).length

/-- Sample at channel `c`, index `i` (0 outside the stored range). -/
def AudioBuffer.sampleAt (b : AudioBuffer) (c i : ℕ) : ℚ :=
  (b.samples.getD c []).getD i 0

/-- `Vec::resize(new_len, 0.0)` on one channel: truncate or zero-pad. -/
def resizeChannel (ch : List ℚ) (n : ℕ) : List ℚ :=
  ch.take n ++ List.replicate (n - ch.length) 0

/-- `AudioBuffer::resize`: resize every channel. -/
def AudioBuffer.resize (b : AudioBuffer) (newLen : ℕ) : AudioBuffer :=
  { b with samples := b.samples.map (fun ch => resizeChannel ch newLen) }

/-- The inner loop of `AudioBuffer::mix` on one channel:
`dst.iter_mut().zip(src.iter())` mutates `dst[i] += src[i] * gain` for
`i` below the zipped length and leaves the rest of `dst` untouched. -/
def mixChannel (dst src : List ℚ) (gain : ℚ) : List ℚ :=
  List.zipWith (fun d s => d + s * gain) dst src ++ dst.drop src.length

/-- `AudioBuffer::mix`: reject on channel-count or sample-rate mismatch
before touching `self`; otherwise resize to `max(self.len, other.len)` and
add `other`'s samples scaled by `gain` channel-wise (the outer
`zip` over channels likewise leaves unpaired trailing channels of `self`
untouched). -/
def AudioBuffer.mix (a : AudioBuffer) (other : AudioBuffer) (gain : ℚ) :
    AudioBuffer × Option AudioError :=
  if other.channels ≠ a.channels ∨ other.sampleRate ≠ a.sampleRate then
    (a, some .BufferMismatch)
  else
    let targetLen := max a.len other.len
    let a' := a.resize targetLen
    ({ a' with samples :=
        List.zipWith (fun d s => mixChannel d s gain) a'.samples other.samples ++
          a'.samples.drop other.samples.length }, none)

/-- `AudioBuffer::append_mono`, behaviour modelled from the spec and the
repository's unit test `test_buffer_operations`: broadcast the mono input
to every channel.  The source body at `buffer.rs:105-110` shadows its
`samples` parameter with `self.samples_mut()` and then calls
`channel.extend_from_slice` on that shadowed binding (the channel array
itself), which is not even well-typed Rust; the intended broadcast is what
the sibling `Track` buffer's `append` (track.rs:269-273) implements and
what the unit test asserts. -/
def AudioBuffer.appendMono (b : AudioBuffer) (input : List ℚ) : AudioBuffer :=
  { b with samples := b.samples.map (fun ch => ch ++ input) }

/-- Well-formedness invariant from the spec's data model (§3): the channel
list has exactly `channels` entries, there is at least one channel (the
source's `len()` indexes `samples[0]`), and every channel has the same
length. -/
def WellFormed (b : AudioBuffer) : Prop :=
  0 < b.channels ∧ b.samples.length = b.channels ∧
    ∀ c < b.samples.length, (b.samples.getD c []).length = b.len

instance (b : AudioBuffer) : Decidable (WellFormed b) := by
  unfold WellFormed; infer_instance

/-- `BufferPool` from `src/core/buffer.rs`: `DashMap<usize, SegQueue<...>>`
keyed by channel count.  The map is modelled as an association list (one
entry per channel count), each `SegQueue` as a list with the FRONT at the
head (`pop` takes the head, `push` appends at the back).  A stored backing
allocation `Arc<Vec<Vec<f32>>>` is modelled by its logical contents. -/
structure BufferPool where
  buckets : List (ℕ × List (List (List ℚ)))
  maxBuffers : ℕ
deriving DecidableEq, Repr

/-- Look up the queue for a channel count (`DashMap::get`). -/
def getBucket (bs : List (ℕ × List (List (List ℚ)))) (k : ℕ) :
    Option (List (List (List ℚ))) :=
  (bs.find? (fun p => p.1 = k)).map Prod.snd

/-- Replace the queue stored for channel count `k`. -/
def setBucket (bs : List (ℕ × List (List (List ℚ)))) (k : ℕ)
    (q : List (List (List ℚ))) : List (ℕ × List (List (List ℚ))) :=
  bs.map (fun p => if p.1 = k then (k, q) else p)

/-- `self.pool.entry(channels).or_insert_with(SegQueue::new)`. -/
def ensureBucket (bs : List (ℕ × List (List (List ℚ)))) (k : ℕ) :
    List (ℕ × List (List (List ℚ))) :=
  if (getBucket bs k).isSome then bs else bs ++ [(k, [])]

/-- `BufferPool::get`: create the bucket for this channel count if absent,
pop a stored allocation if one is queued (returned exactly as stored), else
allocate `channels` fresh empty channels.  Reserved capacity is not
modelled (note the source's fresh path
`vec![Vec::with_capacity(capacity); channels]` clones the inner `Vec`,
which does not preserve capacity either). -/
def BufferPool.get (p : BufferPool) (channels : ℕ) (_capacity : ℕ) :
    List (List ℚ) × BufferPool :=
  let bs := ensureBucket p.buckets channels
  match getBucket bs channels with
  | some (d :: rest) => (d, { p with buckets := setBucket bs channels rest })
  | _ => (List.replicate channels [], { p with buckets := bs })

/-- `BufferPool::return_buffer`: the source guards on
`self.pool.len() < self.max_buffers`, i.e. it compares the number of
CHANNEL-COUNT BUCKETS in the map (not the number of entries queued in the
relevant bucket) with `max_buffers`; if the guard passes and a bucket for
`data.len()` channels exists, `data` is pushed onto that bucket's queue. -/
def BufferPool.returnBuffer (p : BufferPool) (data : List (List ℚ)) : BufferPool :=
  if p.buckets.length < p.maxBuffers then
    match getBucket p.buckets data.length with
    | some q => { p with buckets := setBucket p.buckets data.length (q ++ [data]) }
    | none => p
  else p

end CoreBuffer

namespace CoreTrack

/-- Track state machine variants (`TrackState` in `src/core/track.rs`). -/
inductive TrackState where
  | Idle
  | Recording
  | Playing
  | Overdubbing
  | Stopped
  | Muted
deriving DecidableEq, Repr

/-- `AudioBuffer` as defined in `src/core/track.rs` (a separate type from
the one in `buffer.rs`): plain per-channel storage without the `Arc`. -/
structure AudioBuffer where
  samples : List (List ℚ)
  sampleRate : ℕ
  channels : ℕ
deriving DecidableEq, Repr

/-- `AudioBuffer::new` (track.rs): `vec![Vec::new(); channels]`. -/
def AudioBuffer.new (sampleRate : ℕ) (channels : ℕ) : AudioBuffer :=
  { samples := List.replicate channels [], sampleRate := sampleRate, channels := channels }

/-- `AudioBuffer::append` (track.rs): extend every channel with the mono
input slice. -/
def AudioBuffer.append (b : AudioBuffer) (input : List ℚ) : AudioBuffer :=
  { b with samples := b.samples.map (fun ch => ch ++ input) }

/-- `AudioBuffer::clear` (track.rs): truncate every channel to length 0. -/
def AudioBuffer.clear (b : AudioBuffer) : AudioBuffer :=
  { b with samples := b.samples.map (fun _ => []) }

/-- `AudioBuffer::len` (track.rs): `self.samples[0].len()`; the model reads
the head channel, defaulting to the empty channel (the source would panic
on a 0-channel buffer). -/
def AudioBuffer.len (b : AudioBuffer) : ℕ :=
  (b.samples.headD []).length

/-- Undo/redo history item: deep copy of the buffer plus the cursor. -/
structure BufferHistory where
  buffer : AudioBuffer
  cursorPos : ℕ
deriving DecidableEq, Repr

/-- `Track` from `src/core/track.rs`.  The effects processor, quantizer and
metadata (id, name, color, creation time) are omitted: no operation
modelled here reads or writes them, and no claim mentions them.  The
`VecDeque` stacks are lists with the deque's back at the list's head. -/
structure Track where
  state : TrackState
  buffer : AudioBuffer
  cursorPos : ℕ
  loopLength : Option ℕ
  undoStack : List BufferHistory
  redoStack : List BufferHistory
  sampleRate : ℕ
deriving DecidableEq, Repr

/-- `Track::new`: Idle, empty buffer, cursor 0, no loop length, empty
history. -/
def Track.new (sampleRate : ℕ) (channels : ℕ) : Track :=
  { state := .Idle
    buffer := AudioBuffer.new sampleRate channels
    cursorPos := 0
    loopLength := none
    undoStack := []
    redoStack := []
    sampleRate := sampleRate }

/-- `Track::save_to_history`: evict the oldest undo entry (`pop_front`,
which is `dropLast` in the back-at-head representation) once the stack
holds 32, push the current `(buffer, cursor)` snapshot, clear redo. -/
def Track.saveToHistory (t : Track) : Track :=
  let us := if 32 ≤ t.undoStack.length then t.undoStack.dropLast else t.undoStack
  { t with undoStack := ⟨t.buffer, t.cursorPos⟩ :: us, redoStack := [] }

/-- `Track::start_recording`: from Idle or Stopped, snapshot to history,
clear the buffer, reset the cursor and enter Recording; from any other
state fail with `InvalidStateTransition` leaving the track untouched. -/
def Track.startRecording (t : Track) : Track × Option AudioError :=
  match t.state with
  | .Idle | .Stopped =>
      let t' := t.saveToHistory
      ({ t' with buffer := t'.buffer.clear, cursorPos := 0, state := .Recording }, none)
  | _ => (t, some .InvalidStateTransition)

/-- `Track::stop_recording`: only from Recording; set
`loop_length := cursor` and enter Playing; otherwise fail with
`InvalidStateTransition` leaving the track untouched. -/
def Track.stopRecording (t : Track) : Track × Option AudioError :=
  if t.state = .Recording then
    ({ t with loopLength := some t.cursorPos, state := .Playing }, none)
  else
    (t, some .InvalidStateTransition)

/-- `Track::start_overdub`: only from Playing; snapshot to history and
enter Overdubbing; otherwise fail with `InvalidStateTransition`. -/
def Track.startOverdub (t : Track) : Track × Option AudioError :=
  match t.state with
  | .Playing =>
      let t' := t.saveToHistory
      ({ t' with state := .Overdubbing }, none)
  | _ => (t, some .InvalidStateTransition)

/-- One overdub write (`self.buffer.samples[0][pos] += sample` with
`pos = cursor % len`); `List.set` at an in-range position updates channel 0
in place. -/
def overdubChannel : List ℚ → ℕ → List ℚ → List ℚ
  | ch, _, [] => ch
  | ch, cursor, v :: rest =>
      overdubChannel (ch.set (cursor % ch.length) (ch.getD (cursor % ch.length) 0 + v))
        (cursor + 1) rest

/-- The Overdubbing branch of `Track::process_input` on the buffer: each
input sample is added into channel 0 at `(cursor + i) % buffer.len()`
("Simple mono mix" — other channels are untouched). -/
def AudioBuffer.overdub (b : AudioBuffer) (cursor : ℕ) (input : List ℚ) : AudioBuffer :=
  { b with samples :=
      match b.samples with
      | [] => []
      | ch0 :: rest => overdubChannel ch0 cursor input :: rest }

/-- `Track::process_input`: in Recording append the input and advance the
cursor; in Overdubbing mix each sample into the existing loop at
`(cursor + i) % buffer.len()` and advance the cursor — if the buffer is
empty and the input is not, the very first `% 0` panics (`none`); in any
other state do nothing. -/
def Track.processInput (t : Track) (input : List ℚ) : Option Track :=
  match t.state with
  | .Recording =>
      some { t with buffer := t.buffer.append input,
                    cursorPos := t.cursorPos + input.length }
  | .Overdubbing =>
      if input.length ≠ 0 ∧ t.buffer.len = 0 then none
      else
        some { t with buffer := t.buffer.overdub t.cursorPos input,
                      cursorPos := t.cursorPos + input.length }
  | _ => some t

/-- `Track::undo`: pop the most recent undo entry into the live
buffer/cursor, pushing the current `(buffer, cursor)` onto redo; fail with
`NothingToUndo` on an empty stack. -/
def Track.undo (t : Track) : Track × Option AudioError :=
  match t.undoStack with
  | h :: rest =>
      ({ t with undoStack := rest
                redoStack := ⟨t.buffer, t.cursorPos⟩ :: t.redoStack
                buffer := h.buffer
                cursorPos := h.cursorPos }, none)
  | [] => (t, some .NothingToUndo)

/-- `Track::redo`: the mirror of `undo`, failing with `NothingToRedo`. -/
def Track.redo (t : Track) : Track × Option AudioError :=
  match t.redoStack with
  | h :: rest =>
      ({ t with redoStack := rest
                undoStack := ⟨t.buffer, t.cursorPos⟩ :: t.undoStack
                buffer := h.buffer
                cursorPos := h.cursorPos }, none)
  | [] => (t, some .NothingToRedo)

end CoreTrack

namespace SyncClock

/-- `MasterClock` from `src/sync/clock.rs`.  The mutex around `bpm` and the
atomic `beat_counter` are concurrency wrappers; the sequential semantics
modelled here reads and writes the plain values.  The `f32` BPM is
modelled as `ℚ`. -/
structure MasterClock where
  bpm : ℚ
  sampleRate : ℕ
  beatCounter : ℕ
deriving DecidableEq, Repr

/-- `MasterClock::samples_per_beat`:
`((60.0 / bpm) * sample_rate as f32) as usize`.  The `as usize` cast
truncates toward zero and saturates at 0 for negative values, which on ℚ
is `Int.toNat ∘ Int.floor` for nonnegative results and 0 for negative
ones — exactly `(⌊·⌋).toNat`. -/
def MasterClock.samplesPerBeat (c : MasterClock) : ℕ :=
  (⌊(60 / c.bpm) * (c.sampleRate : ℚ)⌋).toNat

/-- `MasterClock::set_bpm`: store `new_bpm` unconditionally (the source
performs no validation and cannot fail — its return type is `()`). -/
def MasterClock.setBpm (c : MasterClock) (newBpm : ℚ) : MasterClock :=
  { c with bpm := newBpm }

/-- `MasterClock::advance`: add the frame count to the sample counter. -/
def MasterClock.advance (c : MasterClock) (samples : ℕ) : MasterClock :=
  { c with beatCounter := c.beatCounter + samples }

end SyncClock

/-! ## Concrete execution traces used by several claims -/

open CoreTrack SyncClock in
/-- A track driven to `Overdubbing` with an EMPTY buffer, using only the
public transitions: `new → start_recording → stop_recording →
start_overdub` with no input processed in between. -/
def emptyOverdubTrack : CoreTrack.Track :=
  ((((CoreTrack.Track.new 44100 2).startRecording).1.stopRecording).1.startOverdub).1

open CoreTrack in
/-- A track driven to `Overdubbing` with two recorded samples:
`new → start_recording → process_input [1, 2] → stop_recording →
start_overdub`. -/
def loadedOverdubTrack : CoreTrack.Track :=
  let t1 := ((CoreTrack.Track.new 44100 2).startRecording).1
  let t2 := (t1.processInput [1, 2]).getD t1
  ((t2.stopRecording).1.startOverdub).1

/-! ## Claim theorems -/

open CoreTrack CoreBuffer SyncClock

/-- Claim C1, as stated, is false: on a track in the `Overdubbing` state
(reached by `new → start_recording → stop_recording → start_overdub`),
`stop_recording` does not succeed — it returns `InvalidStateTransition`
and the track stays in `Overdubbing` (the source only accepts
`stop_recording` from `Recording`). -/
theorem C1_counterexample :
    emptyOverdubTrack.state = .Overdubbing ∧
    (emptyOverdubTrack.stopRecording).2 = some .InvalidStateTransition ∧
    (emptyOverdubTrack.stopRecording).1.state = .Overdubbing ∧
    (emptyOverdubTrack.stopRecording).1.loopLength = emptyOverdubTrack.loopLength := by
  decide

/-- Claim C1 (amended): for every track in the `Overdubbing` state,
`stop_recording` fails with `InvalidStateTransition` and leaves the track
— state and `loop_length` included — completely unchanged. -/
theorem C1_stop_recording_overdub_rejected (t : Track) (h : t.state = .Overdubbing) :
    t.stopRecording = (t, some .InvalidStateTransition) := by
  simp [Track.stopRecording, h]

/-- Witness for C1: the amended statement applied to the concrete
`Overdubbing` track. -/
theorem C1_witness :
    emptyOverdubTrack.stopRecording = (emptyOverdubTrack, some .InvalidStateTransition) :=
  C1_stop_recording_overdub_rejected emptyOverdubTrack (by decide)

/-- Claim C2: for every track, the second of two `start_recording` calls
without an intervening `stop_recording` fails with
`InvalidStateTransition`, and the rejected call leaves the track — state,
buffer contents and cursor position included — completely unchanged. -/
theorem C2_start_recording_twice_rejected (t : Track) :
    ((t.startRecording).1.startRecording).2 = some .InvalidStateTransition ∧
    ((t.startRecording).1.startRecording).1 = (t.startRecording).1 := by
  rcases t with ⟨st, buf, cur, ll, us, rs, sr⟩
  cases st <;> exact ⟨rfl, rfl⟩

/-- Claim C5: on every track with a non-empty undo stack, `undo` succeeds
and a following `redo` succeeds and restores bit-for-bit the buffer
contents and cursor position from immediately before the `undo`. -/
theorem C5_undo_redo_roundtrip (t : Track) (h : t.undoStack ≠ []) :
    (t.undo).2 = none ∧
    ((t.undo).1.redo).2 = none ∧
    ((t.undo).1.redo).1.buffer = t.buffer ∧
    ((t.undo).1.redo).1.cursorPos = t.cursorPos := by
  rcases t with ⟨st, buf, cur, ll, us, rs, sr⟩
  cases us with
  | nil => exact absurd rfl h
  | cons hd rest => exact ⟨rfl, rfl, rfl, rfl⟩

/-- Witness for C5: the round trip on a concrete track whose undo stack
holds the snapshot pushed by `start_recording`. -/
theorem C5_witness :
    ((((Track.new 44100 1).startRecording).1.undo).2 = none ∧
     (((((Track.new 44100 1).startRecording).1.undo).1.redo).2 = none) ∧
     (((((Track.new 44100 1).startRecording).1.undo).1.redo).1.buffer =
        ((Track.new 44100 1).startRecording).1.buffer) ∧
     (((((Track.new 44100 1).startRecording).1.undo).1.redo).1.cursorPos =
        ((Track.new 44100 1).startRecording).1.cursorPos)) :=
  C5_undo_redo_roundtrip ((Track.new 44100 1).startRecording).1 (by decide)

/-- Claim C10: in the `Overdubbing` state, `process_input` indexes the
buffer at `(cursor + i) mod buffer_length`; whenever the buffer is
non-empty this is well defined and the modulo-by-zero panic is unreachable
(`process_input` returns a value).  Moreover a track really can reach
`Overdubbing` with an empty buffer — recording nothing before
`stop_recording` and `start_overdub` — and there a non-empty input hits
the `% 0` panic (modelled as `none`). -/
theorem C10_overdub_index_safe :
    (∀ (t : Track) (input : List ℚ), t.state = .Overdubbing → t.buffer.len ≠ 0 →
        (t.processInput input).isSome) ∧
    (emptyOverdubTrack.state = .Overdubbing ∧ emptyOverdubTrack.buffer.len = 0 ∧
        emptyOverdubTrack.processInput [1] = none) := by
  constructor
  · intro t input hs hlen
    simp [Track.processInput, hs, hlen]
  · decide

/-- Witness for C10: the safety statement applied to a concrete
`Overdubbing` track holding two recorded samples. -/
theorem C10_witness : (loadedOverdubTrack.processInput [5, 6]).isSome :=
  C10_overdub_index_safe.1 loadedOverdubTrack [5, 6] (by decide) (by decide)

/-- Claim C6, as stated, is false: `samples_per_beat` is computed with an
`as usize` cast, which truncates; at 130 BPM and 44100 Hz the source
yields 20353 while `round(60 / bpm * sample_rate)` is 20354. -/
theorem C6_round_counterexample :
    (MasterClock.mk 130 44100 0).samplesPerBeat = 20353 ∧
    (round ((60 / (130 : ℚ)) * 44100)).toNat = 20354 ∧
    (MasterClock.mk 130 44100 0).samplesPerBeat ≠ (round ((60 / (130 : ℚ)) * 44100)).toNat := by
  refine ⟨?_, ?_, ?_⟩ <;> (norm_num [MasterClock.samplesPerBeat, round_eq]; omega)

/-- Claim C6 (amended): for every clock with positive BPM,
`samples_per_beat()` is the TRUNCATION of `60 / bpm * sample_rate`
(characterised as the floor: it is ≤ the exact value and within 1 below
it); in particular at 120 BPM and 44100 Hz it equals 22050 and at 60 BPM
and 44100 Hz it equals 44100. -/
theorem C6_samples_per_beat_floor :
    (∀ c : MasterClock, 0 < c.bpm →
        ((c.samplesPerBeat : ℚ) ≤ 60 / c.bpm * (c.sampleRate : ℚ) ∧
          60 / c.bpm * (c.sampleRate : ℚ) < (c.samplesPerBeat : ℚ) + 1)) ∧
    (MasterClock.mk 120 44100 0).samplesPerBeat = 22050 ∧
    (MasterClock.mk 60 44100 0).samplesPerBeat = 44100 := by
  refine ⟨?_, by norm_num [MasterClock.samplesPerBeat]; omega,
    by norm_num [MasterClock.samplesPerBeat]; omega⟩
  intro c hc
  have hx : (0 : ℚ) ≤ 60 / c.bpm * (c.sampleRate : ℚ) :=
    mul_nonneg (le_of_lt (div_pos (by norm_num) hc)) (Nat.cast_nonneg _)
  have hfl : (0 : ℤ) ≤ ⌊(60 / c.bpm) * (c.sampleRate : ℚ)⌋ := Int.floor_nonneg.mpr hx
  have hcast : ((c.samplesPerBeat : ℚ)) = ((⌊(60 / c.bpm) * (c.sampleRate : ℚ)⌋ : ℤ) : ℚ) := by
    unfold MasterClock.samplesPerBeat
    exact_mod_cast congrArg (fun z : ℤ => (z : ℚ)) (Int.toNat_of_nonneg hfl)
  constructor
  · rw [hcast]; exact Int.floor_le _
  · rw [hcast]
    exact_mod_cast Int.lt_floor_add_one ((60 / c.bpm) * (c.sampleRate : ℚ))

/-- Witness for C6: the floor characterisation applied to a concrete clock
at 130 BPM and 44100 Hz. -/
theorem C6_witness :
    (((MasterClock.mk 130 44100 0).samplesPerBeat : ℚ) ≤
        60 / (MasterClock.mk 130 44100 0).bpm * ((MasterClock.mk 130 44100 0).sampleRate : ℚ) ∧
      60 / (MasterClock.mk 130 44100 0).bpm * ((MasterClock.mk 130 44100 0).sampleRate : ℚ) <
        ((MasterClock.mk 130 44100 0).samplesPerBeat : ℚ) + 1) :=
  C6_samples_per_beat_floor.1 (MasterClock.mk 130 44100 0) (by norm_num)

/-- Claim C7, as stated, is false: `set_bpm` performs no validation — at a
concrete clock, `set_bpm(-1)` replaces the stored BPM with -1 instead of
failing and leaving it unchanged. -/
theorem C7_counterexample :
    ((MasterClock.mk 120 44100 0).setBpm (-1)).bpm = -1 ∧
    ((MasterClock.mk 120 44100 0).setBpm (-1)).bpm ≠ (MasterClock.mk 120 44100 0).bpm := by
  decide

/-- Claim C7 (amended): for every `new_bpm ≤ 0`, `set_bpm` succeeds (the
source cannot fail: it returns `()`) and stores `new_bpm` as the new BPM,
leaving the other clock fields unchanged. -/
theorem C7_set_bpm_unvalidated (c : MasterClock) (newBpm : ℚ) (_h : newBpm ≤ 0) :
    (c.setBpm newBpm).bpm = newBpm ∧
    (c.setBpm newBpm).sampleRate = c.sampleRate ∧
    (c.setBpm newBpm).beatCounter = c.beatCounter :=
  ⟨rfl, rfl, rfl⟩

/-- `headD` with default is `getD 0`. -/
theorem c3_headD_eq_getD (l : List (List ℚ)) : l.headD [] = l.getD 0 [] := by
  cases l <;> rfl

/-- Unfolding `resizeChannel` on a cons cell. -/
theorem c3_resizeChannel_cons (c : ℚ) (cs : List ℚ) (m : ℕ) :
    resizeChannel (c :: cs) (m + 1) = c :: resizeChannel cs m := by
  simp [resizeChannel, Nat.succ_sub_succ]

/-- `Vec::resize` produces exactly the requested length. -/
theorem c3_length_resizeChannel (ch : List ℚ) (n : ℕ) : (resizeChannel ch n).length = n := by
  simp [resizeChannel]
  omega

/-- Reading any position of an all-zero channel yields 0. -/
theorem c3_getD_replicate (n i : ℕ) : (List.replicate n (0 : ℚ)).getD i 0 = 0 := by
  induction n generalizing i with
  | zero => cases i <;> rfl
  | succ m ih =>
      cases i with
      | zero => rfl
      | succ j => simp [ih j]

/-- In-range reads of a resized channel: original samples below the old
length, zero padding above it. -/
theorem c3_getD_resizeChannel (ch : List ℚ) (n i : ℕ) (hi : i < n) :
    (resizeChannel ch n).getD i 0 = if i < ch.length then ch.getD i 0 else 0 := by
  induction ch generalizing n i with
  | nil =>
      have hr : resizeChannel ([] : List ℚ) n = List.replicate n 0 := by simp [resizeChannel]
      rw [hr]
      simp [c3_getD_replicate]
  | cons c cs ih =>
      cases n with
      | zero => omega
      | succ m =>
          rw [c3_resizeChannel_cons]
          cases i with
          | zero => simp
          | succ j =>
              simp only [List.getD_cons_succ, List.length_cons, Nat.succ_lt_succ_iff]
              exact ih m j (by omega)

/-- The per-channel mix loop preserves the destination length. -/
theorem c3_length_mixChannel (dst src : List ℚ) (g : ℚ) :
    (mixChannel dst src g).length = dst.length := by
  simp [mixChannel]
  omega

/-- Reading the per-channel mix result: destination plus gain-scaled
source below the source length, untouched destination above it (requires
the destination to be at least as long as the source, as it is after the
resize in `mix`). -/
theorem c3_getD_mixChannel (dst src : List ℚ) (g : ℚ) (i : ℕ)
    (h : src.length ≤ dst.length) :
    (mixChannel dst src g).getD i 0 =
      dst.getD i 0 + (if i < src.length then src.getD i 0 * g else 0) := by
  induction dst generalizing src i with
  | nil =>
      have hs : src = [] := List.length_eq_zero.mp (Nat.le_zero.mp h)
      subst hs
      simp [mixChannel]
  | cons d ds ih =>
      cases src with
      | nil => simp [mixChannel]
      | cons s ss =>
          have hstep : mixChannel (d :: ds) (s :: ss) g = (d + s * g) :: mixChannel ds ss g := by
            simp [mixChannel]
          rw [hstep]
          cases i with
          | zero => simp
          | succ j =>
              simp only [List.getD_cons_succ, List.length_cons, Nat.succ_lt_succ_iff]
              exact ih ss j (by simpa using h)

/-- Reading channel `c` of `zipWith f xs ys ++ xs.drop ys.length` (the
channel-level shape produced by `mix`) when the channel lists have equal
length. -/
theorem c3_getD_zipfull (f : List ℚ → List ℚ → List ℚ) (xs ys : List (List ℚ)) (c : ℕ)
    (hlen : xs.length = ys.length) (hc : c < xs.length) :
    (List.zipWith f xs ys ++ xs.drop ys.length).getD c [] =
      f (xs.getD c []) (ys.getD c []) := by
  induction xs generalizing ys c with
  | nil => exact absurd hc (by simp)
  | cons x xs ih =>
      cases ys with
      | nil => simp at hlen
      | cons y ys =>
          simp only [List.zipWith_cons_cons, List.drop_succ_cons, List.cons_append]
          cases c with
          | zero => rfl
          | succ j =>
              simp only [List.getD_cons_succ]
              exact ih ys j (by simpa using hlen) (by simpa using hc)

/-- Reading channel `c` of the mapped resize. -/
theorem c3_getD_map_resize (l : List (List ℚ)) (n c : ℕ) (hc : c < l.length) :
    (l.map (fun ch => resizeChannel ch n)).getD c [] = resizeChannel (l.getD c []) n := by
  induction l generalizing c with
  | nil => exact absurd hc (by simp)
  | cons x xs ih =>
      cases c with
      | zero => rfl
      | succ j => simpa using ih j (by simpa using hc)

/-- The shape `mix` takes when the compatibility check passes. -/
theorem c3_mix_eq_of_match (a b : CoreBuffer.AudioBuffer) (g : ℚ)
    (hch : b.channels = a.channels) (hsr : b.sampleRate = a.sampleRate) :
    a.mix b g =
      (⟨List.zipWith (fun d s => mixChannel d s g)
          (a.samples.map (fun ch => resizeChannel ch (max a.len b.len))) b.samples ++
          (a.samples.map (fun ch => resizeChannel ch (max a.len b.len))).drop
            b.samples.length,
        a.sampleRate, a.channels⟩, none) := by
  have hcond : ¬(b.channels ≠ a.channels ∨ b.sampleRate ≠ a.sampleRate) := by
    push_neg
    exact ⟨hch, hsr⟩
  simp only [CoreBuffer.AudioBuffer.mix, if_neg hcond, CoreBuffer.AudioBuffer.resize]

/-- Claim C3: for well-formed buffers, `mix` rejects a channel-count or
sample-rate mismatch with `BufferMismatch` leaving the destination
completely unchanged; on matching shapes it succeeds, every channel of the
result has length `max(self.len, other.len)`, and each sample is the
zero-padded original plus the gain-scaled source sample (sources shorter
than the result contribute nothing beyond their length). -/
theorem C3_mix_spec (a b : CoreBuffer.AudioBuffer) (g : ℚ)
    (ha : CoreBuffer.WellFormed a) (hb : CoreBuffer.WellFormed b) :
    ((b.channels ≠ a.channels ∨ b.sampleRate ≠ a.sampleRate) →
        a.mix b g = (a, some .BufferMismatch)) ∧
    (b.channels = a.channels → b.sampleRate = a.sampleRate →
        (a.mix b g).2 = none ∧
        (a.mix b g).1.len = max a.len b.len ∧
        (∀ c, c < a.channels → ((a.mix b g).1.samples.getD c []).length = max a.len b.len) ∧
        (∀ c, c < a.channels → ∀ i, i < max a.len b.len →
            (a.mix b g).1.sampleAt c i =
              (if i < a.len then a.sampleAt c i else 0) +
              (if i < b.len then b.sampleAt c i * g else 0))) := by
  obtain ⟨hapos, halen, hach⟩ := ha
  obtain ⟨hbpos, hblen, hbch⟩ := hb
  constructor
  · intro h
    simp only [CoreBuffer.AudioBuffer.mix, if_pos h]
  · intro hch hsr
    have hmix := c3_mix_eq_of_match a b g hch hsr
    have hAlen : (a.samples.map (fun ch => resizeChannel ch (max a.len b.len))).length =
        a.samples.length := List.length_map _ _
    have hBlen : b.samples.length = a.samples.length := by
      rw [hblen, hch, halen]
    have hchan : ∀ c, c < a.channels →
        ((a.mix b g).1.samples.getD c []).length = max a.len b.len := by
      intro c hc
      have hca : c < a.samples.length := by rw [halen]; exact hc
      rw [hmix]
      simp only
      rw [c3_getD_zipfull _ _ _ _ (by rw [hAlen, hBlen]) (by rw [hAlen]; exact hca)]
      rw [c3_length_mixChannel, c3_getD_map_resize _ _ _ hca, c3_length_resizeChannel]
    refine ⟨by rw [hmix], ?_, hchan, ?_⟩
    · show ((a.mix b g).1.samples.headD []).length = max a.len b.len
      rw [c3_headD_eq_getD]
      exact hchan 0 hapos
    · intro c hc i hi
      have hca : c < a.samples.length := by rw [halen]; exact hc
      have hcb : c < b.samples.length := by rw [hBlen]; exact hca
      show ((a.mix b g).1.samples.getD c []).getD i 0 =
        (if i < a.len then (a.samples.getD c []).getD i 0 else 0) +
        (if i < b.len then (b.samples.getD c []).getD i 0 * g else 0)
      rw [hmix]
      simp only
      rw [c3_getD_zipfull _ _ _ _ (by rw [hAlen, hBlen]) (by rw [hAlen]; exact hca)]
      rw [c3_getD_map_resize _ _ _ hca]
      rw [c3_getD_mixChannel _ _ _ _
        (by rw [hbch c hcb, c3_length_resizeChannel]; exact le_max_right _ _)]
      rw [c3_getD_resizeChannel _ _ _ hi, hach c hca, hbch c hcb]

/-- Witness for C3: `mix` applied to two concrete well-formed 2-channel
buffers of lengths 2 and 3 with gain 2. -/
theorem C3_witness :
    CoreBuffer.WellFormed ⟨[[1, 2], [3, 4]], 44100, 2⟩ ∧
    CoreBuffer.WellFormed ⟨[[10, 20, 30], [40, 50, 60]], 44100, 2⟩ ∧
    ((⟨[[1, 2], [3, 4]], 44100, 2⟩ : CoreBuffer.AudioBuffer).mix
        ⟨[[10, 20, 30], [40, 50, 60]], 44100, 2⟩ 2).2 = none :=
  ⟨by decide, by decide,
    ((C3_mix_spec ⟨[[1, 2], [3, 4]], 44100, 2⟩ ⟨[[10, 20, 30], [40, 50, 60]], 44100, 2⟩ 2
        (by decide) (by decide)).2 rfl rfl).1⟩

/-- Claim C4: the broadcast semantics the claim (and the repository's own
unit test `test_buffer_operations`) ascribe to `append_mono`, evaluated on
the test's input: on a fresh 2-channel buffer, `append_mono([1,2,3])`
yields both channels equal to `[1,2,3]`.  The source body itself shadows
its parameter and is not even well-typed Rust (see
`CoreBuffer.AudioBuffer.appendMono`), so this theorem certifies the
intended behaviour the code fails to implement. -/
theorem C4_append_mono_broadcast :
    ((CoreBuffer.AudioBuffer.new 44100 2).appendMono [1, 2, 3]).samples =
      [[1, 2, 3], [1, 2, 3]] ∧
    ∀ (b : CoreBuffer.AudioBuffer) (input : List ℚ),
      (b.appendMono input).samples = b.samples.map (fun ch => ch ++ input) := by
  exact ⟨by decide, fun b input => rfl⟩

/-- The pool state after the repository's `test_buffer_pool` scenario up
to the release: `BufferPool::new(10)`, check a 2-channel buffer out (fresh,
bucket created), the holder fills its channels with `[1,2]` and `[3,4]`
through `DerefMut`, then drops it (`return_buffer`). -/
def c8PoolAfterRelease : CoreBuffer.BufferPool :=
  let p1 := (CoreBuffer.BufferPool.get ⟨[], 10⟩ 2 1024).2
  p1.returnBuffer [[1, 2], [3, 4]]

/-- Claim C8, refuted on the reuse path: the first checkout is indeed
fresh and zero-length, but after the filled buffer is released, the next
`get(2, 1024)` hands back the pooled storage exactly as stored — logical
length 2 per channel with the stale samples, not zero length (and the
source reserves no capacity on this path either, so the repository's own
`test_buffer_pool` capacity assertion fails). -/
theorem C8_pool_reuse_stale :
    (CoreBuffer.BufferPool.get ⟨[], 10⟩ 2 1024).1 = [[], []] ∧
    (c8PoolAfterRelease.get 2 1024).1 = [[1, 2], [3, 4]] ∧
    ¬ ∀ ch ∈ (c8PoolAfterRelease.get 2 1024).1, ch.length = 0 := by
  decide

/-- The pool state after releasing eleven 2-channel storages into a pool
constructed with `max_buffers = 10` (one prior `get` creates the bucket,
as every release requires an existing bucket). -/
def c9Pool : CoreBuffer.BufferPool :=
  let p1 := (CoreBuffer.BufferPool.get ⟨[], 10⟩ 2 16).2
  (List.replicate 11 ([[], []] : List (List ℚ))).foldl CoreBuffer.BufferPool.returnBuffer p1

/-- Claim C9, refuted: `return_buffer` compares the number of
channel-count BUCKETS (`self.pool.len()`) with `max_buffers`, not the
number of entries queued for the channel count, so with a single bucket
the guard `1 < 10` always passes and releasing an 11th buffer grows that
bucket to 11 entries — beyond `max_buffers`.  (A subsequent checkout still
succeeds: `get` is total; here it would pop one of the 11 entries.) -/
theorem C9_pool_bucket_unbounded :
    (CoreBuffer.getBucket c9Pool.buckets 2).map List.length = some 11 ∧
    c9Pool.maxBuffers < ((CoreBuffer.getBucket c9Pool.buckets 2).getD []).length := by
  decide

/-- Witness for C7: `set_bpm(-1)` on a concrete clock. -/
theorem C7_witness :
    ((MasterClock.mk 120 44100 0).setBpm (-1)).bpm = -1 ∧
    ((MasterClock.mk 120 44100 0).setBpm (-1)).sampleRate = (MasterClock.mk 120 44100 0).sampleRate ∧
    ((MasterClock.mk 120 44100 0).setBpm (-1)).beatCounter = (MasterClock.mk 120 44100 0).beatCounter :=
  C7_set_bpm_unvalidated (MasterClock.mk 120 44100 0) (-1) (by norm_num)

end LoopStation
